import Mathlib

/-!
Shallow embedding of the funasr_server repository (src/server.py, src/client.py)
for verification of its specification.

Modelling conventions:
* JSON / dynamic Python values are modelled by the inductive `PyVal`.
* Raw audio bytes are `List Nat` (each element intended < 256).
* `np.frombuffer(..., dtype=np.int16)` is modelled by `bytesToInt16`: it fails
  (raises `ValueError`) unless the byte length is a multiple of 2, and
  otherwise decodes little-endian signed 16-bit samples.
* `astype(np.float32) / 32768.0` is modelled over `ℚ`; division of an int16
  value by the power of two 32768 is exact in IEEE float32, so `ℚ` is faithful.
* The external recognizer `self.model.generate` is an opaque collaborator,
  passed as a function `gen : List ℚ → Except String PyVal`; `.error e`
  models the call raising an exception with message `e`.
* A Python exception escaping a modelled code region is an `Except.error`.
-/

/-- Dynamic (JSON-like) Python values as they flow through the program. -/
inductive PyVal where
  | vStr (s : String)
  | vInt (n : Int)
  | vList (l : List PyVal)
  | vDict (d : List (String × PyVal))
  | vNone
deriving Repr

/-- Python dict lookup `d.get(k)` / key test `k in d`, dicts as assoc lists. -/
def jget (d : List (String × PyVal)) (k : String) : Option PyVal :=
  match d with
  | [] => none
  | (k', v) :: rest => if k' = k then some v else jget rest k

/-- Python truthiness (`if x:`) for the values we model. -/
def pyTruthy : PyVal → Bool
  | .vStr s => !s.isEmpty
  | .vInt n => n != 0
  | .vList l => !l.isEmpty
  | .vDict d => !d.isEmpty
  | .vNone => false

/-- Python `len(x)`: defined on str/list/dict, raises `TypeError` otherwise. -/
def pyLen : PyVal → Option Nat
  | .vStr s => some s.length
  | .vList l => some l.length
  | .vDict d => some d.length
  | _ => none

/-- Python `x[i]` for a natural index: lists and strings are indexable
(strings yield one-character strings); anything else raises. -/
def pyIndex : PyVal → Nat → Option PyVal
  | .vList l, i => l.get? i
  | .vStr s, i => (s.data.get? i).map (fun c => .vStr (String.mk [c]))
  | _, _ => none

/-! ### PCM16LE decoding (`np.frombuffer(audio_data, dtype=np.int16)`) -/

/-- Decode one little-endian byte pair as a signed 16-bit integer. -/
def int16OfLe (lo hi : Nat) : Int :=
  let u := lo + 256 * hi
  if u < 32768 then (u : Int) else (u : Int) - 65536

/-- Decode consecutive little-endian byte pairs (any trailing odd byte is
ignored here; `bytesToInt16` rejects it up front, as numpy does). -/
def int16Pairs : List Nat → List Int
  | lo :: hi :: rest => int16OfLe lo hi :: int16Pairs rest
  | _ => []

/-- Model of `np.frombuffer(bytes, dtype=np.int16)`: raises `ValueError` (`none`)
unless the buffer length is a multiple of the 2-byte item size. -/
def bytesToInt16 (l : List Nat) : Option (List Int) :=
  if l.length % 2 = 0 then some (int16Pairs l) else none

/-- The conversion `astype(np.float32) / 32768.0` on one sample (exact in float32). -/
def sampleToFloat (s : Int) : ℚ :=
  (s : ℚ) / 32768

/-! ### Server: `ASRServer.recognize_audio` (src/server.py lines 107-174) -/

/-- Per-connection server session state: `self.clients[client_id]`.
`sample_rate` is stored as a dynamic value because `data.get("sample_rate", 16000)`
can store arbitrary JSON. -/
structure Session where
  audio_buffer : List Nat
  sample_rate : PyVal
deriving Repr

/-- The fresh session installed on connect:
`{"audio_buffer": b"", "sample_rate": 16000}`. -/
def initSession : Session := ⟨[], .vInt 16000⟩

/-- One iteration of the timestamp-segment loop (src/server.py lines 151-162):
a well-shaped segment contributes `{"text", "start", "end"}`; a segment whose
processing raises is skipped (the inner `except` catches it); segments of the
wrong shape are skipped with a warning. -/
def processSegment (seg : PyVal) : Option PyVal :=
  match seg with
  | .vDict d =>
    if (jget d "text").isSome ∧ (jget d "timestamp").isSome then
      match jget d "timestamp" with
      | some tv =>
        match pyIndex tv 0, pyIndex tv 1 with
        | some a, some b =>
            some (.vDict [("text", (jget d "text").getD .vNone), ("start", a), ("end", b)])
        | _, _ => none
      | none => none
    else none
  | _ => none

/-- Timestamp extraction (src/server.py lines 144-164): only a list-valued
`result["timestamp"]` contributes entries; anything else yields `[]`. -/
def processTimestamps (d : List (String × PyVal)) : List PyVal :=
  match jget d "timestamp" with
  | some (.vList segs) => segs.filterMap processSegment
  | _ => []

/-- Model of `ASRServer.recognize_audio` (src/server.py lines 107-174), with the
recognizer call abstracted as `gen`. An `Except.error` result is an exception
escaping the method (only `np.frombuffer` on an odd-length buffer, which sits
outside the `try`). -/
def recognize_audio (gen : List ℚ → Except String PyVal) (s : Session) :
    Except String PyVal :=
  if s.audio_buffer.isEmpty then
    .ok (.vDict [("text", .vStr ""), ("timestamps", .vList [])])
  else
    match bytesToInt16 s.audio_buffer with
    | none => .error "ValueError: buffer size must be a multiple of element size"
    | some ints =>
      match gen (ints.map sampleToFloat) with
      | .error e =>
          .ok (.vDict [("text", .vStr ""), ("error", .vStr e), ("timestamps", .vList [])])
      | .ok r =>
        match r with
        | .vDict d =>
          let text := (jget d "text").getD (.vStr "")
          let timestamps := processTimestamps d
          match pyLen text with
          | some _ => .ok (.vDict [("text", text), ("timestamps", .vList timestamps)])
          | none =>
              .ok (.vDict [("text", .vStr ""),
                           ("error", .vStr "TypeError: object has no len"),
                           ("timestamps", .vList [])])
        | _ =>
            .ok (.vDict [("text", .vStr ""), ("error", .vStr "模型返回格式错误"),
                         ("timestamps", .vList [])])

/-! ### Server: the message loop of `ASRServer.process_audio` (lines 64-105) -/

/-- An incoming websocket message. For a textual message the payload is the
outcome of `json.loads`: `none` models malformed JSON (the call raises
`json.JSONDecodeError`), `some v` the parsed value. -/
inductive InMsg where
  | str (parsed : Option PyVal)
  | bytes (b : List Nat)

/-- Handling of one message by the `async for` body of `process_audio`
(src/server.py lines 70-96). `.error (e, s)` is an exception `e` escaping the
body with the session in state `s` at raise time (mutations made before the
raise persist): `json.loads` failing, `data.get` on a non-dict
(`AttributeError`), or `recognize_audio` raising. On success it returns the
updated session and the results sent over the websocket for this message. -/
def handleMsg (gen : List ℚ → Except String PyVal) (s : Session) (m : InMsg) :
    Except (String × Session) (Session × List PyVal) :=
  match m with
  | .str none => .error ("json.JSONDecodeError", s)
  | .str (some v) =>
    match v with
    | .vDict d =>
      match jget d "type" with
      | some (.vStr t) =>
        if t = "config" then
          .ok ({ s with sample_rate := (jget d "sample_rate").getD (.vInt 16000) }, [])
        else if t = "eof" then
          match recognize_audio gen s with
          | .error e => .error (e, s)
          | .ok r => .ok ({ s with audio_buffer := [] }, [r])
        else .ok (s, [])
      | _ => .ok (s, [])
    | _ => .error ("AttributeError", s)
  | .bytes b =>
    let s1 : Session := { s with audio_buffer := s.audio_buffer ++ b }
    if 32000 < s1.audio_buffer.length then
      match recognize_audio gen s1 with
      | .error e => .error (e, s1)
      | .ok r => .ok ({ s1 with audio_buffer := [] }, [r])
    else .ok (s1, [])

/-- Outcome of running the message loop over a stream of messages. -/
structure LoopResult where
  state : Session
  sent : List PyVal
  aborted : Bool
  processed : Nat
deriving Repr

/-- The `async for message in websocket:` loop of `process_audio`: messages are
handled in order; the first exception escapes the loop (it is then caught and
logged by the outer `except Exception`), leaving later messages unprocessed. -/
def runMsgs (gen : List ℚ → Except String PyVal) :
    Session → List InMsg → LoopResult
  | s, [] => ⟨s, [], false, 0⟩
  | s, m :: ms =>
    match handleMsg gen s m with
    | .error (_, sErr) => ⟨sErr, [], true, 0⟩
    | .ok (s1, out) =>
      let r := runMsgs gen s1 ms
      ⟨r.state, out ++ r.sent, r.aborted, r.processed + 1⟩

/-- Final outcome of `process_audio` for one connection: the `finally` block
(src/server.py lines 102-105) always deletes the session entry, so after the
handler returns the client map no longer holds the session. -/
structure ConnOutcome where
  entry : Option Session
  sent : List PyVal
  aborted : Bool
  processed : Nat

/-- Model of `ASRServer.process_audio` from connect to cleanup: install a fresh session,
run the message loop, and delete the entry in `finally`. -/
def process_audio (gen : List ℚ → Except String PyVal) (msgs : List InMsg) :
    ConnOutcome :=
  let r := runMsgs gen initSession msgs
  ⟨none, r.sent, r.aborted, r.processed⟩

/-! ### Server: buffer/dispatch policy in isolation (lines 86-96)

For claims about the byte-count dispatch policy we model the binary-frame
branch of `process_audio` with the recognition call abstracted to recording
the submitted payload. -/

/-- Session-buffer state plus the log of payloads submitted for recognition. -/
structure BufState where
  buffer : List Nat
  dispatched : List (List Nat)
deriving Repr, DecidableEq

/-- One binary-frame append (src/server.py lines 89-96) with the recognition
call abstracted to recording the submitted payload. The dispatch branch here
assumes the dispatched buffer is well formed: on an odd-length over-threshold
buffer the real code raises `ValueError` inside `recognize_audio` instead of
clearing (see `handleMsg`, which models that path), so this abstraction is
only used under an evenness hypothesis that makes the raise unreachable
(claim C7). -/
def appendFrame (st : BufState) (frame : List Nat) : BufState :=
  let buf := st.buffer ++ frame
  if 32000 < buf.length then ⟨[], st.dispatched ++ [buf]⟩ else ⟨buf, st.dispatched⟩

/-- Process a sequence of binary frames in arrival order. -/
def appendFrames (st : BufState) (frames : List (List Nat)) : BufState :=
  frames.foldl appendFrame st

/-! ### Client: transcript aggregation (`ASRClient`, src/client.py) -/

/-- Python `hay.startswith(nee)` on character lists. -/
def strStartsWith : List Char → List Char → Bool
  | _, [] => true
  | [], _ :: _ => false
  | a :: as, b :: bs => a == b && strStartsWith as bs

/-- Occurrence of `nee` as a contiguous sublist of `hay`. -/
def strContainsAux : List Char → List Char → Bool
  | [], nee => nee.isEmpty
  | a :: t, nee => strStartsWith (a :: t) nee || strContainsAux t nee

/-- Python `nee in hay` substring test. -/
def pyIn (nee hay : String) : Bool :=
  strContainsAux hay.data nee.data

/-- Python `s.endswith(suf)`. -/
def pyEndsWith (s suf : String) : Bool :=
  strStartsWith s.data.reverse suf.data.reverse

/-- Client transcript state (`ASRClient.__init__`, src/client.py lines 20-29).
`current_text` is dynamic: line 121 assigns whatever `result["text"]` held.
`session_start_time` models `time.time()` as a rational timestamp. -/
structure Transcript where
  current_text : PyVal
  accumulated_text : String
  session_start_time : ℚ
  is_recording : Bool

/-- The transcript as initialised by `ASRClient.__init__`. -/
def initTranscript : Transcript := ⟨.vStr "", "", 0, false⟩

/-- The text-merging step of `ASRClient.receive_results` for a string result
text (src/client.py lines 120-126): on non-empty `text`, set `current_text`
and append to `accumulated_text` unless it already ends with `text` or
contains `text` as a substring; a single space separates appended parts
unless the accumulator was empty. -/
def on_result (t : Transcript) (text : String) : Transcript :=
  if text = "" then t
  else
    let t1 := { t with current_text := .vStr text }
    if !pyEndsWith t.accumulated_text text && !pyIn text t.accumulated_text then
      if t.accumulated_text = "" then { t1 with accumulated_text := text }
      else { t1 with accumulated_text := t.accumulated_text ++ " " ++ text }
    else t1

/-- Model of `ASRClient.start_recording` (src/client.py lines 46-76) restricted to the
transcript-related state: a no-op while already recording; otherwise it stamps
`session_start_time` and clears `accumulated_text` (lines 51-52) and starts
the stream. `current_text` is not touched. -/
def start_recording (t : Transcript) (now : ℚ) : Transcript :=
  if t.is_recording then t
  else { t with is_recording := true, session_start_time := now, accumulated_text := "" }

/-- One received websocket message on the client, as the outcome of
`json.loads` (line 109): `none` models malformed JSON, whose
`json.JSONDecodeError` is caught by the inner `except` (line 131). -/
inductive ClientMsg where
  | malformed
  | parsed (v : PyVal)

/-- Handling of one parsed server message by the loop body of
`ASRClient.receive_results` (src/client.py lines 109-134). Returns the new
transcript and whether `_display_results` printed anything (it returns
immediately on falsy text, line 143). A dict containing `"error"` is skipped
(`continue`, line 114). A truthy non-string `text` sets `current_text` and
then raises `TypeError` inside `str.endswith`, caught by the inner `except`
(line 133), so no display occurs. -/
def receive_parsed (t : Transcript) (v : PyVal) : Transcript × Bool :=
  match v with
  | .vDict d =>
    if (jget d "error").isSome then (t, false)
    else
      match jget d "text" with
      | some tv =>
        if pyTruthy tv then
          match tv with
          | .vStr s => (on_result t s, true)
          | other => ({ t with current_text := other }, false)
        else (t, false)
      | none => (t, false)
  | _ => (t, false)

/-- One full iteration of the client receive loop including the JSON parse. -/
def receive_step (t : Transcript) (m : ClientMsg) : Transcript × Bool :=
  match m with
  | .malformed => (t, false)
  | .parsed v => receive_parsed t v

/-! ### Helper lemmas -/

theorem replicate_frames_length :
    (List.replicate 10 (List.replicate 3200 (0 : Nat))).flatten.length = 32000 := by
  simp only [List.length_flatten, List.map_replicate, List.length_replicate,
    List.sum_replicate, smul_eq_mul]

theorem singleton_replicate_flatten_length :
    ([List.replicate 32000 (0 : Nat)] : List (List Nat)).flatten.length = 32000 := by
  simp only [List.flatten_cons, List.flatten_nil, List.append_nil, List.length_replicate]

theorem flatten_length_even (frames : List (List Nat))
    (h : ∀ f ∈ frames, 2 ∣ f.length) : 2 ∣ frames.flatten.length := by
  induction frames with
  | nil => simp
  | cons f fs ih =>
    rw [List.flatten_cons, List.length_append]
    exact Nat.dvd_add (h f (by simp))
      (ih (fun g hg => h g (List.mem_cons_of_mem f hg)))

/-- On a non-empty buffer of even length `recognize_audio` never raises: the
`np.frombuffer` conversion succeeds, and every branch inside the `try`
returns a value (recognizer exceptions are caught locally). -/
theorem recognize_audio_ok (gen : List ℚ → Except String PyVal) (s : Session)
    (hne : s.audio_buffer.isEmpty = false)
    (heven : s.audio_buffer.length % 2 = 0) :
    ∃ r, recognize_audio gen s = .ok r := by
  rw [recognize_audio]
  have hb : bytesToInt16 s.audio_buffer = some (int16Pairs s.audio_buffer) := by
    unfold bytesToInt16; rw [if_pos heven]
  simp only [hne, Bool.false_eq_true, if_false, hb]
  cases gen ((int16Pairs s.audio_buffer).map sampleToFloat) with
  | error e => exact ⟨_, rfl⟩
  | ok r =>
    cases r with
    | vDict d =>
      dsimp only
      cases pyLen ((jget d "text").getD (.vStr "")) with
      | none => exact ⟨_, rfl⟩
      | some n => exact ⟨_, rfl⟩
    | vStr a => exact ⟨_, rfl⟩
    | vInt n => exact ⟨_, rfl⟩
    | vList l => exact ⟨_, rfl⟩
    | vNone => exact ⟨_, rfl⟩

/-- While the cumulative length stays at or below 32000 bytes, binary frames
only accumulate in the session buffer: no dispatch fires, nothing is sent,
nothing raises, and the run continues with the enlarged buffer. -/
theorem runMsgs_accumulate (gen : List ℚ → Except String PyVal)
    (frames : List (List Nat)) (s : Session) (rest : List InMsg)
    (h : s.audio_buffer.length + frames.flatten.length ≤ 32000) :
    runMsgs gen s (frames.map InMsg.bytes ++ rest) =
      ⟨(runMsgs gen { s with audio_buffer := s.audio_buffer ++ frames.flatten } rest).state,
       (runMsgs gen { s with audio_buffer := s.audio_buffer ++ frames.flatten } rest).sent,
       (runMsgs gen { s with audio_buffer := s.audio_buffer ++ frames.flatten } rest).aborted,
       (runMsgs gen { s with audio_buffer := s.audio_buffer ++ frames.flatten } rest).processed
         + frames.length⟩ := by
  induction frames generalizing s with
  | nil => simp
  | cons f fs ih =>
    have hle : ¬ 32000 < (s.audio_buffer ++ f).length := by
      rw [List.length_append]
      simp only [List.flatten_cons, List.length_append] at h
      omega
    have hstep : handleMsg gen s (.bytes f)
        = .ok ({ s with audio_buffer := s.audio_buffer ++ f }, []) := by
      simp only [handleMsg]
      rw [if_neg hle]
    have htail : ({ s with audio_buffer := s.audio_buffer ++ f } : Session).audio_buffer.length
        + fs.flatten.length ≤ 32000 := by
      show (s.audio_buffer ++ f).length + fs.flatten.length ≤ 32000
      rw [List.length_append]
      simp only [List.flatten_cons, List.length_append] at h
      omega
    calc runMsgs gen s (List.map InMsg.bytes (f :: fs) ++ rest)
        = runMsgs gen s (InMsg.bytes f :: (List.map InMsg.bytes fs ++ rest)) := rfl
      _ = ⟨(runMsgs gen { s with audio_buffer := s.audio_buffer ++ f }
              (List.map InMsg.bytes fs ++ rest)).state,
           (runMsgs gen { s with audio_buffer := s.audio_buffer ++ f }
              (List.map InMsg.bytes fs ++ rest)).sent,
           (runMsgs gen { s with audio_buffer := s.audio_buffer ++ f }
              (List.map InMsg.bytes fs ++ rest)).aborted,
           (runMsgs gen { s with audio_buffer := s.audio_buffer ++ f }
              (List.map InMsg.bytes fs ++ rest)).processed + 1⟩ := by
            rw [runMsgs, hstep]
            rfl
      _ = _ := by
            rw [ih _ htail]
            simp only [List.flatten_cons, List.append_assoc, Nat.add_assoc,
              List.length_cons]

/-! ### C1 -/

/-- C1 fails on the code: the dispatch condition is strict
(`len(...) > 32000`), so 10 frames of 3200 bytes (cumulative exactly 32000)
trigger no dispatch at all — nothing is sent, the loop does not abort, and
all 32000 bytes remain buffered. -/
theorem c1_counterexample :
    (runMsgs (fun _ => .ok (.vDict [("text", .vStr "ok")])) initSession
        ((List.replicate 10 (List.replicate 3200 (0 : Nat))).map InMsg.bytes)).sent = [] ∧
    (runMsgs (fun _ => .ok (.vDict [("text", .vStr "ok")])) initSession
        ((List.replicate 10 (List.replicate 3200 (0 : Nat))).map InMsg.bytes)).aborted = false ∧
    (runMsgs (fun _ => .ok (.vDict [("text", .vStr "ok")])) initSession
        ((List.replicate 10 (List.replicate 3200 (0 : Nat))).map InMsg.bytes)).state.audio_buffer.length
      = 32000 := by
  have h : initSession.audio_buffer.length
      + (List.replicate 10 (List.replicate 3200 (0 : Nat))).flatten.length ≤ 32000 := by
    rw [show initSession.audio_buffer = [] from rfl, List.length_nil, replicate_frames_length]
  have hco := runMsgs_accumulate (fun _ => .ok (.vDict [("text", .vStr "ok")]))
      (List.replicate 10 (List.replicate 3200 (0 : Nat))) initSession [] h
  rw [List.append_nil] at hco
  rw [hco]
  refine ⟨rfl, rfl, ?_⟩
  show ({ initSession with
      audio_buffer := initSession.audio_buffer
        ++ (List.replicate 10 (List.replicate 3200 (0 : Nat))).flatten } : Session).audio_buffer.length
    = 32000
  show (initSession.audio_buffer
        ++ (List.replicate 10 (List.replicate 3200 (0 : Nat))).flatten).length = 32000
  rw [show initSession.audio_buffer = [] from rfl, List.nil_append, replicate_frames_length]

/-- C1 (amended): for well-formed PCM frames (each of even byte length), the
dispatch fires at the first append that makes the cumulative length strictly
exceed 32000 bytes: exactly one result is sent, produced by recognition of
exactly the bytes accumulated through that call at the session's sample rate,
the loop does not abort, and the buffer is empty immediately after.
Cumulative exactly 32000 (ten 3200-byte frames) triggers nothing, and an odd
cumulative length crossing the threshold would instead raise `ValueError` in
`np.frombuffer` and abort the session. -/
theorem c1_threshold_dispatch (gen : List ℚ → Except String PyVal)
    (pre : List (List Nat)) (fk : List Nat)
    (heven : ∀ f ∈ pre ++ [fk], 2 ∣ f.length)
    (h1 : pre.flatten.length ≤ 32000)
    (h2 : 32000 < pre.flatten.length + fk.length) :
    ∃ r, recognize_audio gen ⟨pre.flatten ++ fk, .vInt 16000⟩ = .ok r ∧
      runMsgs gen initSession ((pre ++ [fk]).map InMsg.bytes) =
        ⟨⟨[], .vInt 16000⟩, [r], false, pre.length + 1⟩ := by
  have hlen2 : 32000 < (pre.flatten ++ fk).length := by
    rw [List.length_append]; exact h2
  have hne : (pre.flatten ++ fk).isEmpty = false := by
    cases hb : pre.flatten ++ fk with
    | nil =>
      rw [hb] at hlen2
      exact absurd hlen2 (by simp)
    | cons a l => rfl
  have hev2 : (pre.flatten ++ fk).length % 2 = 0 := by
    have hdvd : 2 ∣ (pre.flatten ++ fk).length := by
      rw [List.length_append]
      exact Nat.dvd_add
        (flatten_length_even pre (fun f hf => heven f (List.mem_append_left _ hf)))
        (heven fk (List.mem_append_right _ (by simp)))
    omega
  obtain ⟨r, hr⟩ := recognize_audio_ok gen ⟨pre.flatten ++ fk, .vInt 16000⟩ hne hev2
  refine ⟨r, hr, ?_⟩
  rw [List.map_append]
  rw [runMsgs_accumulate gen pre initSession _ (by
        rw [show initSession.audio_buffer = [] from rfl, List.length_nil]
        omega)]
  have hs1 : ({ initSession with
      audio_buffer := initSession.audio_buffer ++ pre.flatten } : Session)
      = ⟨pre.flatten, .vInt 16000⟩ := by
    rw [show initSession.audio_buffer = [] from rfl, List.nil_append]
    rfl
  rw [hs1]
  have hdisp : handleMsg gen ⟨pre.flatten, .vInt 16000⟩ (.bytes fk)
      = .ok (⟨[], .vInt 16000⟩, [r]) := by
    simp only [handleMsg]
    rw [if_pos hlen2, hr]
  have hfin : runMsgs gen ⟨pre.flatten, .vInt 16000⟩ (List.map InMsg.bytes [fk])
      = ⟨⟨[], .vInt 16000⟩, [r], false, 1⟩ := by
    simp only [List.map_cons, List.map_nil]
    rw [runMsgs, hdisp]
    rfl
  rw [hfin]
  dsimp only
  rw [Nat.add_comm]

/-- Witness for C1: a 32000-byte frame followed by a 2-byte frame (all frames
well-formed even-length PCM) dispatches exactly once at the second call,
submitting all 32002 accumulated bytes to recognition, and leaves the buffer
empty. -/
theorem c1_witness :
    ∃ r, recognize_audio (fun _ => .error "boom")
        ⟨([List.replicate 32000 (0 : Nat)] : List (List Nat)).flatten ++ [0, 0], .vInt 16000⟩
          = .ok r ∧
      runMsgs (fun _ => .error "boom") initSession
          ((([List.replicate 32000 (0 : Nat)] : List (List Nat)) ++ [[0, 0]]).map InMsg.bytes) =
        ⟨⟨[], .vInt 16000⟩, [r], false, 2⟩ :=
  c1_threshold_dispatch (fun _ => .error "boom") [List.replicate 32000 (0 : Nat)] [0, 0]
    (by
      intro f hf
      rcases List.mem_append.mp hf with hmem | hmem
      · rw [List.mem_singleton.mp hmem, List.length_replicate]
        decide
      · rw [List.mem_singleton.mp hmem]
        decide)
    (by rw [singleton_replicate_flatten_length])
    (by rw [singleton_replicate_flatten_length]; decide)

/-! ### C7 -/

/-- C7 fails on the code as stated for frames of arbitrary sizes: nothing
enforces alignment, so a single 1-byte frame leaves the buffer with odd
length. -/
theorem c7_counterexample :
    ¬ 2 ∣ (appendFrames ⟨[], []⟩ [[0]]).buffer.length := by decide

/-- C7 (amended): provided every incoming binary frame itself has even byte
length (well-formed 16-bit PCM), evenness of the buffer length is preserved
by every append and every dispatch/reset, so it holds after processing any
frame sequence from any even state. -/
theorem c7_even_invariant (frames : List (List Nat)) (st : BufState)
    (hf : ∀ f ∈ frames, 2 ∣ f.length) (h0 : 2 ∣ st.buffer.length) :
    2 ∣ (appendFrames st frames).buffer.length := by
  induction frames generalizing st with
  | nil => simpa [appendFrames] using h0
  | cons f fs ih =>
    have hstep : 2 ∣ (appendFrame st f).buffer.length := by
      have hf1 : 2 ∣ f.length := hf f (by simp)
      rw [appendFrame]
      split
      · simp
      · simp only [List.length_append]
        omega
    exact ih _ (fun g hg => hf g (List.mem_cons_of_mem f hg)) hstep

/-- Witness for C7: two even frames from the empty buffer keep the length
even. -/
theorem c7_witness : 2 ∣ (appendFrames ⟨[], []⟩ [[1, 2], [3, 4, 5, 6]]).buffer.length :=
  c7_even_invariant [[1, 2], [3, 4, 5, 6]] ⟨[], []⟩ (by decide) (by decide)

/-! ### C8 -/

theorem int16OfLe_bounds (lo hi : Nat) (hlo : lo < 256) (hhi : hi < 256) :
    -32768 ≤ int16OfLe lo hi ∧ int16OfLe lo hi ≤ 32767 := by
  simp only [int16OfLe]
  split <;> omega

theorem int16Pairs_mem_bounds : ∀ (l : List Nat), (∀ b ∈ l, b < 256) →
    ∀ s ∈ int16Pairs l, -32768 ≤ s ∧ s ≤ 32767
  | [], _, s, hs => by simp [int16Pairs] at hs
  | [_], _, s, hs => by simp [int16Pairs] at hs
  | lo :: hi :: rest, hb, s, hs => by
    simp only [int16Pairs, List.mem_cons] at hs
    rcases hs with h | h
    · subst h
      exact int16OfLe_bounds lo hi (hb lo (by simp)) (hb hi (by simp))
    · exact int16Pairs_mem_bounds rest
        (fun b hbm => hb b (by simp [hbm])) s h

theorem sampleToFloat_bounds (s : Int) (h1 : -32768 ≤ s) (h2 : s ≤ 32767) :
    -1 ≤ sampleToFloat s ∧ sampleToFloat s ≤ 1 := by
  unfold sampleToFloat
  constructor
  · rw [le_div_iff₀ (by norm_num : (0 : ℚ) < 32768)]
    have : (-32768 : ℚ) ≤ (s : ℚ) := by exact_mod_cast h1
    linarith
  · rw [div_le_one (by norm_num : (0 : ℚ) < 32768)]
    have : (s : ℚ) ≤ 32767 := by exact_mod_cast h2
    linarith

/-- C8: on every non-empty well-formed PCM16LE buffer the conversion step
`np.frombuffer(..., np.int16).astype(np.float32) / 32768.0` succeeds (no
failure mode) and maps each decoded 16-bit sample `s` to `s / 32768`, and
every resulting value lies in `[-1, 1]`. -/
theorem c8_sample_conversion (bytes : List Nat) (hne : bytes ≠ [])
    (heven : bytes.length % 2 = 0) (hrange : ∀ b ∈ bytes, b < 256) :
    ∃ samples, bytesToInt16 bytes = some samples ∧
      (∀ s ∈ samples, sampleToFloat s = (s : ℚ) / 32768) ∧
      ∀ q ∈ samples.map sampleToFloat, -1 ≤ q ∧ q ≤ 1 := by
  refine ⟨int16Pairs bytes, by simp [bytesToInt16, heven], fun s _ => rfl, ?_⟩
  intro q hq
  rcases List.mem_map.mp hq with ⟨s, hs, rfl⟩
  have hbd := int16Pairs_mem_bounds bytes hrange s hs
  exact sampleToFloat_bounds s hbd.1 hbd.2

/-- Witness for C8: the buffer `[0x34, 0x12, 0x00, 0x80]` decodes to samples
`[4660, -32768]` whose scaled values lie in `[-1, 1]`. -/
theorem c8_witness :
    ∃ samples, bytesToInt16 [52, 18, 0, 128] = some samples ∧
      (∀ s ∈ samples, sampleToFloat s = (s : ℚ) / 32768) ∧
      ∀ q ∈ samples.map sampleToFloat, -1 ≤ q ∧ q ≤ 1 :=
  c8_sample_conversion [52, 18, 0, 128] (by decide) (by decide) (by decide)

/-! ### C3 -/

/-- C3 fails on the code: after the ordered inputs "hello", "hello world",
"world" the accumulated transcript is "hello hello world", not "hello world"
("hello world" is appended because it is not a substring of "hello"). -/
theorem c3_counterexample :
    (on_result (on_result (on_result initTranscript "hello") "hello world") "world").accumulated_text
      ≠ "hello world" := by decide

/-- C3 (amended): after the ordered inputs "hello", "hello world", "world" the
accumulated transcript is exactly "hello hello world", with no append for the
third input; in general `accumulated_text` is unchanged by any input wholly
contained in it. -/
theorem c3_aggregation_run :
    (on_result (on_result (on_result initTranscript "hello") "hello world") "world").accumulated_text
        = "hello hello world" ∧
    ∀ (t : Transcript) (text : String), pyIn text t.accumulated_text = true →
      (on_result t text).accumulated_text = t.accumulated_text := by
  refine ⟨by decide, ?_⟩
  intro t text h
  unfold on_result
  split
  · rfl
  · simp [h]

/-- Witness for C3: "world" is contained in "hello hello world", and feeding
it to the aggregator in that state leaves the accumulated text unchanged. -/
theorem c3_witness :
    (on_result ⟨.vStr "", "hello hello world", 0, false⟩ "world").accumulated_text
      = "hello hello world" :=
  c3_aggregation_run.2 ⟨.vStr "", "hello hello world", 0, false⟩ "world" (by decide)

/-! ### C4 -/

/-- C4: `on_result` leaves all state unchanged on empty text; on non-empty
text it sets `current_text` to the text and appends to `accumulated_text`
exactly when the accumulator neither ends with the text nor contains it as a
substring, inserting a single space separator unless the accumulator was
empty; in every other case `accumulated_text` is unchanged. -/
theorem c4_on_result_characterization (t : Transcript) (text : String) :
    (text = "" → on_result t text = t) ∧
    (text ≠ "" →
      (on_result t text).current_text = .vStr text ∧
      (on_result t text).session_start_time = t.session_start_time ∧
      (on_result t text).is_recording = t.is_recording ∧
      ((pyEndsWith t.accumulated_text text = false ∧ pyIn text t.accumulated_text = false) →
        (on_result t text).accumulated_text =
          (if t.accumulated_text = "" then text
           else t.accumulated_text ++ " " ++ text)) ∧
      ((pyEndsWith t.accumulated_text text = true ∨ pyIn text t.accumulated_text = true) →
        (on_result t text).accumulated_text = t.accumulated_text)) := by
  constructor
  · intro h
    simp [on_result, h]
  · intro hne
    unfold on_result
    rw [if_neg hne]
    refine ⟨?_, ?_, ?_, ?_, ?_⟩
    · split <;> first | rfl | (split <;> rfl)
    · split <;> first | rfl | (split <;> rfl)
    · split <;> first | rfl | (split <;> rfl)
    · rintro ⟨h1, h2⟩
      simp only [h1, h2, Bool.not_false, Bool.and_self, if_true]
      split <;> simp_all
    · rintro (h | h) <;> simp [h]

/-- Witness for C4: feeding "hi" to a fresh transcript sets the current text
and starts the accumulator without a separator. -/
theorem c4_witness :
    (on_result initTranscript "hi").current_text = PyVal.vStr "hi" ∧
    (on_result initTranscript "hi").accumulated_text = "hi" := by
  have h := (c4_on_result_characterization initTranscript "hi").2 (by decide)
  refine ⟨h.1, ?_⟩
  have h2 := h.2.2.2.1 ⟨by decide, by decide⟩
  simpa using h2

/-! ### C6 -/

/-- C6 fails on the code: `start_recording` (src/client.py lines 46-76) resets
`accumulated_text` and `session_start_time` but never clears `current_text`:
starting a new session with a stale current text leaves it in place. -/
theorem c6_counterexample :
    (start_recording ⟨.vStr "x", "old", 0, false⟩ 5).current_text ≠ PyVal.vStr "" := by
  intro h
  have hx : "x" = "" := PyVal.vStr.inj (by simpa [start_recording] using h)
  exact absurd hx (by decide)

/-- C6 (amended): when recording is not already in progress, starting a
recording session always yields an empty `accumulated_text` and stamps
`session_start_time` with the current time, regardless of prior state;
`current_text` is left unchanged (it is not cleared). -/
theorem c6_reset (t : Transcript) (now : ℚ) (h : t.is_recording = false) :
    (start_recording t now).accumulated_text = "" ∧
    (start_recording t now).session_start_time = now ∧
    (start_recording t now).current_text = t.current_text := by
  simp [start_recording, h]

/-- Witness for C6: resetting from a dirty state clears only the accumulator
and the clock. -/
theorem c6_witness :
    (start_recording ⟨.vStr "x", "old", 0, false⟩ 5).accumulated_text = "" ∧
    (start_recording ⟨.vStr "x", "old", 0, false⟩ 5).session_start_time = 5 ∧
    (start_recording ⟨.vStr "x", "old", 0, false⟩ 5).current_text = PyVal.vStr "x" :=
  c6_reset ⟨.vStr "x", "old", 0, false⟩ 5 rfl

/-! ### C9 -/

/-- C9: a received message parsing to a dict with an "error" key is skipped
entirely (`continue` at src/client.py line 114): the transcript is unchanged
and no display update occurs, even when the message also carries a non-empty
"text" field. -/
theorem c9_error_skip (t : Transcript) (d : List (String × PyVal))
    (h : (jget d "error").isSome = true) :
    receive_parsed t (.vDict d) = (t, false) := by
  simp [receive_parsed, h]

/-- Witness for C9: a message carrying both an error and a non-empty text is
skipped without touching the transcript or the display. -/
theorem c9_witness :
    receive_parsed initTranscript
        (.vDict [("error", .vStr "boom"), ("text", .vStr "hello")])
      = (initTranscript, false) :=
  c9_error_skip initTranscript [("error", .vStr "boom"), ("text", .vStr "hello")] rfl

/-! ### C2 -/

/-- C2 fails on the code: `json.loads` (src/server.py line 73) is not guarded
by a per-message handler, so a malformed textual message aborts the message
loop before any later message is handled: here a malformed message followed
by a valid config message leaves zero messages processed and the sample rate
still at its default, and the loop is aborted. -/
theorem c2_counterexample :
    (runMsgs (fun _ => .ok (.vDict [("text", .vStr "ok")])) initSession
        [.str none,
         .str (some (.vDict [("type", .vStr "config"), ("sample_rate", .vInt 48000)]))]).processed
      = 0 ∧
    (runMsgs (fun _ => .ok (.vDict [("text", .vStr "ok")])) initSession
        [.str none,
         .str (some (.vDict [("type", .vStr "config"), ("sample_rate", .vInt 48000)]))]).aborted
      = true ∧
    (runMsgs (fun _ => .ok (.vDict [("text", .vStr "ok")])) initSession
        [.str none,
         .str (some (.vDict [("type", .vStr "config"), ("sample_rate", .vInt 48000)]))]).state.sample_rate
      = .vInt 16000 :=
  ⟨rfl, rfl, rfl⟩

/-- C2 (amended): a malformed structured message raises a JSON decode error
that escapes the per-message handling; the connection-level handler catches
and logs it, so the session stops processing all subsequent messages (nothing
is sent, the session state itself is unchanged by the malformed message), and
the `finally` block deletes the session entry — the session does not continue. -/
theorem c2_malformed_aborts (gen : List ℚ → Except String PyVal) (s : Session)
    (post : List InMsg) (msgs : List InMsg) :
    runMsgs gen s (.str none :: post) = ⟨s, [], true, 0⟩ ∧
    (process_audio gen msgs).entry = none :=
  ⟨rfl, rfl⟩

/-! ### C5 -/

/-- C5: for every dispatch of a non-empty well-formed buffer in which the
recognizer call raises — whether triggered by a binary frame crossing the
threshold or by an `eof` control message — `recognize_audio` catches the
exception locally and the dispatched message is
`{"text": "", "error": e, "timestamps": []}`; the session survives with its
sample rate intact and an empty buffer (the submitted audio is not retried),
and subsequent audio accumulates normally. -/
theorem c5_recognizer_failure (gen : List ℚ → Except String PyVal) (s : Session)
    (b : List Nat) (e : String)
    (s2 : Session) (de : List (String × PyVal)) (e2 : String)
    (heven : (s.audio_buffer ++ b).length % 2 = 0)
    (hbig : 32000 < (s.audio_buffer ++ b).length)
    (hgen : gen ((int16Pairs (s.audio_buffer ++ b)).map sampleToFloat) = .error e)
    (hne2 : s2.audio_buffer ≠ [])
    (heven2 : s2.audio_buffer.length % 2 = 0)
    (hde : jget de "type" = some (.vStr "eof"))
    (hgen2 : gen ((int16Pairs s2.audio_buffer).map sampleToFloat) = .error e2) :
    handleMsg gen s (.bytes b) =
      .ok (⟨[], s.sample_rate⟩,
           [.vDict [("text", .vStr ""), ("error", .vStr e), ("timestamps", .vList [])]]) ∧
    handleMsg gen s2 (.str (some (.vDict de))) =
      .ok (⟨[], s2.sample_rate⟩,
           [.vDict [("text", .vStr ""), ("error", .vStr e2), ("timestamps", .vList [])]]) ∧
    ∀ b2 : List Nat, b2.length ≤ 32000 →
      handleMsg gen ⟨[], s.sample_rate⟩ (.bytes b2) = .ok (⟨b2, s.sample_rate⟩, []) := by
  refine ⟨?_, ?_, ?_⟩
  · have hne : (s.audio_buffer ++ b).isEmpty = false := by
      cases hbuf : s.audio_buffer ++ b with
      | nil => rw [hbuf] at hbig; simp at hbig
      | cons a l => rfl
    simp only [handleMsg, hbig, if_true]
    rw [recognize_audio]
    simp only [hne, Bool.false_eq_true, if_false, bytesToInt16, heven, if_true, hgen]
  · have hne : s2.audio_buffer.isEmpty = false := by
      cases hbuf : s2.audio_buffer with
      | nil => exact absurd hbuf hne2
      | cons a l => rfl
    have hrec : recognize_audio gen s2
        = .ok (.vDict [("text", .vStr ""), ("error", .vStr e2), ("timestamps", .vList [])]) := by
      rw [recognize_audio]
      simp only [hne, Bool.false_eq_true, if_false, bytesToInt16, heven2, if_true, hgen2]
    simp [handleMsg, hde, hrec]
  · intro b2 h2
    have hle : ¬ 32000 < (([] : List Nat) ++ b2).length := by
      rw [List.nil_append]; omega
    simp only [handleMsg, hle, if_false]
    rw [List.nil_append]

/-- Witness for C5: a 32002-byte frame over an empty buffer with a recognizer
that always raises "boom" yields the error result and an empty buffer; an
`eof` message on a session holding two buffered bytes likewise yields the
error result and an empty buffer; and a following small frame accumulates
normally. -/
theorem c5_witness :
    handleMsg (fun _ => .error "boom") initSession (.bytes (List.replicate 32002 0)) =
      .ok (⟨[], PyVal.vInt 16000⟩,
           [.vDict [("text", .vStr ""), ("error", .vStr "boom"), ("timestamps", .vList [])]]) ∧
    handleMsg (fun _ => .error "boom") ⟨[1, 2], PyVal.vInt 16000⟩
        (.str (some (.vDict [("type", .vStr "eof")]))) =
      .ok (⟨[], PyVal.vInt 16000⟩,
           [.vDict [("text", .vStr ""), ("error", .vStr "boom"), ("timestamps", .vList [])]]) ∧
    handleMsg (fun _ => .error "boom") ⟨[], PyVal.vInt 16000⟩ (.bytes [7]) =
      .ok (⟨[7], PyVal.vInt 16000⟩, []) := by
  have h := c5_recognizer_failure (fun _ => .error "boom") initSession
    (List.replicate 32002 0) "boom" ⟨[1, 2], .vInt 16000⟩ [("type", .vStr "eof")] "boom"
    (by rw [show initSession.audio_buffer = [] from rfl, List.nil_append,
          List.length_replicate])
    (by rw [show initSession.audio_buffer = [] from rfl, List.nil_append,
          List.length_replicate]
        omega)
    rfl
    (by decide)
    (by decide)
    rfl
    rfl
  exact ⟨h.1, h.2.1, h.2.2 [7] (by rw [List.length_cons, List.length_nil]; omega)⟩

/-! ### C10 -/

/-- C10: assuming the recognizer result's `text` field (when the result is a
dict that has one) is a string — the collaborator contract — every value
returned by a `recognize_audio` dispatch on a well-formed (even-length)
buffer is a dict with a string `"text"` and a list `"timestamps"`, in all
four outcomes, and an `"error"` key is present exactly when the buffer was
non-empty and the recognizer either raised or returned a non-dict. -/
theorem c10_result_shape (gen : List ℚ → Except String PyVal) (s : Session)
    (heven : s.audio_buffer.length % 2 = 0)
    (htext : ∀ d0 v, gen ((int16Pairs s.audio_buffer).map sampleToFloat) = .ok (.vDict d0) →
        jget d0 "text" = some v → ∃ str, v = .vStr str) :
    ∃ d : List (String × PyVal),
      recognize_audio gen s = .ok (.vDict d) ∧
      (∃ str, jget d "text" = some (.vStr str)) ∧
      (∃ l, jget d "timestamps" = some (.vList l)) ∧
      ((jget d "error").isSome = true ↔
        s.audio_buffer ≠ [] ∧
          ((∃ e, gen ((int16Pairs s.audio_buffer).map sampleToFloat) = .error e) ∨
           (∃ r, gen ((int16Pairs s.audio_buffer).map sampleToFloat) = .ok r ∧
              ∀ d0, r ≠ .vDict d0))) := by
  rw [recognize_audio]
  by_cases hbuf : s.audio_buffer.isEmpty = true
  · rw [if_pos hbuf]
    have hnil : s.audio_buffer = [] := List.isEmpty_iff.mp hbuf
    refine ⟨[("text", .vStr ""), ("timestamps", .vList [])], rfl, ⟨"", by simp [jget]⟩,
      ⟨[], by simp [jget]⟩, ?_⟩
    apply iff_of_false
    · simp [jget]
    · rintro ⟨hne, _⟩; exact hne hnil
  · rw [if_neg hbuf]
    have hnil : s.audio_buffer ≠ [] := fun h => hbuf (by rw [h]; rfl)
    have hb : bytesToInt16 s.audio_buffer = some (int16Pairs s.audio_buffer) := by
      unfold bytesToInt16; rw [if_pos heven]
    simp only [hb]
    cases hg : gen ((int16Pairs s.audio_buffer).map sampleToFloat) with
    | error e =>
      refine ⟨[("text", .vStr ""), ("error", .vStr e), ("timestamps", .vList [])], rfl,
        ⟨"", by simp [jget]⟩, ⟨[], by simp [jget]⟩, ?_⟩
      exact iff_of_true (by simp [jget]) ⟨hnil, Or.inl ⟨e, rfl⟩⟩
    | ok r =>
      cases r with
      | vDict d0 =>
        have hne_rhs : ¬ (s.audio_buffer ≠ [] ∧
            ((∃ e, (Except.ok (PyVal.vDict d0) : Except String PyVal) = .error e) ∨
             (∃ r, (Except.ok (PyVal.vDict d0) : Except String PyVal) = .ok r ∧
                ∀ d1, r ≠ .vDict d1))) := by
          rintro ⟨_, (⟨e, he⟩ | ⟨r', hr', hnd⟩)⟩
          · exact Except.noConfusion he
          · injection hr' with hr'
            exact hnd d0 hr'.symm
        cases htv : jget d0 "text" with
        | none =>
          simp only [htv, Option.getD_none, pyLen]
          refine ⟨[("text", .vStr ""), ("timestamps", .vList (processTimestamps d0))], rfl,
            ⟨"", by simp [jget]⟩, ⟨processTimestamps d0, by simp [jget]⟩, ?_⟩
          exact iff_of_false (by simp [jget]) hne_rhs
        | some v =>
          obtain ⟨str, rfl⟩ := htext d0 v hg htv
          simp only [htv, Option.getD_some, pyLen]
          refine ⟨[("text", .vStr str), ("timestamps", .vList (processTimestamps d0))], rfl,
            ⟨str, by simp [jget]⟩, ⟨processTimestamps d0, by simp [jget]⟩, ?_⟩
          exact iff_of_false (by simp [jget]) hne_rhs
      | vStr a =>
        refine ⟨[("text", .vStr ""), ("error", .vStr "模型返回格式错误"),
          ("timestamps", .vList [])], rfl, ⟨"", by simp [jget]⟩, ⟨[], by simp [jget]⟩, ?_⟩
        exact iff_of_true (by simp [jget])
          ⟨hnil, Or.inr ⟨.vStr a, rfl, fun d1 h => PyVal.noConfusion h⟩⟩
      | vInt n =>
        refine ⟨[("text", .vStr ""), ("error", .vStr "模型返回格式错误"),
          ("timestamps", .vList [])], rfl, ⟨"", by simp [jget]⟩, ⟨[], by simp [jget]⟩, ?_⟩
        exact iff_of_true (by simp [jget])
          ⟨hnil, Or.inr ⟨.vInt n, rfl, fun d1 h => PyVal.noConfusion h⟩⟩
      | vList l =>
        refine ⟨[("text", .vStr ""), ("error", .vStr "模型返回格式错误"),
          ("timestamps", .vList [])], rfl, ⟨"", by simp [jget]⟩, ⟨[], by simp [jget]⟩, ?_⟩
        exact iff_of_true (by simp [jget])
          ⟨hnil, Or.inr ⟨.vList l, rfl, fun d1 h => PyVal.noConfusion h⟩⟩
      | vNone =>
        refine ⟨[("text", .vStr ""), ("error", .vStr "模型返回格式错误"),
          ("timestamps", .vList [])], rfl, ⟨"", by simp [jget]⟩, ⟨[], by simp [jget]⟩, ?_⟩
        exact iff_of_true (by simp [jget])
          ⟨hnil, Or.inr ⟨.vNone, rfl, fun d1 h => PyVal.noConfusion h⟩⟩

/-- Witness for C10: a two-byte buffer and a recognizer returning
`{"text": "hi"}` produce a dict result with string text, list timestamps and
no error key. -/
theorem c10_witness :
    ∃ d : List (String × PyVal),
      recognize_audio (fun _ => .ok (.vDict [("text", .vStr "hi")])) ⟨[1, 2], .vInt 16000⟩
          = .ok (.vDict d) ∧
      (∃ str, jget d "text" = some (.vStr str)) ∧
      (∃ l, jget d "timestamps" = some (.vList l)) ∧
      ((jget d "error").isSome = true ↔
        ([1, 2] : List Nat) ≠ [] ∧
          ((∃ e, (fun (_ : List ℚ) => (Except.ok (PyVal.vDict [("text", .vStr "hi")]) : Except String PyVal))
                ((int16Pairs [1, 2]).map sampleToFloat) = .error e) ∨
           (∃ r, (fun (_ : List ℚ) => (Except.ok (PyVal.vDict [("text", .vStr "hi")]) : Except String PyVal))
                ((int16Pairs [1, 2]).map sampleToFloat) = .ok r ∧
              ∀ d0, r ≠ .vDict d0))) :=
  c10_result_shape (fun _ => .ok (.vDict [("text", .vStr "hi")])) ⟨[1, 2], .vInt 16000⟩
    rfl
    (fun d0 v hgen htv => by
      injection hgen with hgen
      injection hgen with hgen
      subst hgen
      simp only [jget, if_pos rfl] at htv
      exact ⟨"hi", by injection htv with h; exact h.symm⟩)
